import Mathlib

/-!
Shallow embedding of the `text-editor` repository (two near-duplicate C
prototypes: `src/src/tte.cpp` and `src/unnamed/part_000`) with proofs about
its highlighting scan, cursor model, input handling and terminal lifecycle.

Conventions of the embedding:
* A C buffer is modelled as the `List Nat` of its bytes up to (excluding) the
  NUL terminator; reading at or past the end of the list yields `0`, which is
  exactly the NUL terminator a C string read would produce (`getB`).
* `size_t` arithmetic that can wrap is made explicit with `% 2 ^ 64` via
  `subW`; additions in the cursor code stay below the buffer length and are
  modelled directly on `Nat`.
* The `write`/`printf` side effects of the scan are irrelevant to the byte
  stream of the spans themselves: each `parse_*` function returns the pair
  (bytes it consumed and echoed, remaining input), in source order.
-/

namespace TextEditor

/-- Read a byte of a NUL-terminated buffer: out-of-range reads return the
terminator `0`, as dereferencing the C buffer at its end would. -/
def getB (buf : List Nat) (i : Nat) : Nat := buf.getD i 0

/-- First byte of the remaining input (`p[0]`, with `0` at the end). -/
def headB (l : List Nat) : Nat := l.headD 0

/-- The number of `size_t` values; subtraction wraps modulo this. -/
def WSIZE : Nat := 2 ^ 64

/-- `size_t` subtraction `a - b` (operands are `size_t`, hence below `WSIZE`). -/
def subW (a b : Nat) : Nat := (a + WSIZE - b) % WSIZE

/-- Source `is_latin` (tte.cpp:63, part_000:82): ASCII letter. -/
def is_latin (c : Nat) : Bool := (65 ≤ c && c ≤ 90) || (97 ≤ c && c ≤ 122)

/-- Source `is_digit` (tte.cpp:71, part_000:90): ASCII digit. -/
def is_digit (c : Nat) : Bool := 48 ≤ c && c ≤ 57

/-- The fixed one-byte punctuation set of the scan
`(){}[]=,;*&` (tte.cpp:294-301). -/
def is_fixed_punct (c : Nat) : Bool :=
  c = 40 || c = 41 || c = 123 || c = 125 || c = 91 || c = 93 ||
  c = 61 || c = 44 || c = 59 || c = 42 || c = 38

/-- Source `parse_space` (tte.cpp:78): consume (and echo) a run of
space, `\n`, `\r`, `\t`; returns (consumed bytes, rest). -/
def parse_space : List Nat → List Nat × List Nat
  | [] => ([], [])
  | c :: rest =>
    if c = 32 ∨ c = 10 ∨ c = 13 ∨ c = 9 then
      let pr := parse_space rest
      (c :: pr.1, pr.2)
    else ([], c :: rest)

/-- Source `parse_block_comment` (tte.cpp:93): consume until `*/` inclusive,
or to the end of the buffer (`while (*p)` stops at a NUL byte). -/
def parse_block_comment : List Nat → List Nat × List Nat
  | [] => ([], [])
  | c :: rest =>
    if c = 0 then ([], c :: rest)
    else if c = 42 ∧ headB rest = 47 then ([42, 47], rest.tail)
    else
      let pr := parse_block_comment rest
      (c :: pr.1, pr.2)

/-- Source `parse_inline_comment` (tte.cpp:114): consume to end of line
(exclusive) or end of buffer. -/
def parse_inline_comment : List Nat → List Nat × List Nat
  | [] => ([], [])
  | c :: rest =>
    if c ≠ 0 ∧ c ≠ 10 ∧ c ≠ 13 then
      let pr := parse_inline_comment rest
      (c :: pr.1, pr.2)
    else ([], c :: rest)

/-- Source `parse_string_literal` (tte.cpp:128): consume until an unescaped
`"` inclusive, or end of buffer.  The C code inspects `p[-1]`; it is always
called just after the opening quote was consumed, so the byte before the
current one is threaded through as `prev` (initially `34`, the quote). -/
def parse_string_literal (prev : Nat) : List Nat → List Nat × List Nat
  | [] => ([], [])
  | c :: rest =>
    if c = 0 then ([], c :: rest)
    else if c = 34 ∧ prev ≠ 92 then ([c], rest)
    else
      let pr := parse_string_literal c rest
      (c :: pr.1, pr.2)

/-- Source `parse_identifier` (tte.cpp:148): consume a run of letters. -/
def parse_identifier : List Nat → List Nat × List Nat
  | [] => ([], [])
  | c :: rest =>
    if is_latin c then
      let pr := parse_identifier rest
      (c :: pr.1, pr.2)
    else ([], c :: rest)

/-- Source `parse_num` (tte.cpp:160): consume a run of digits. -/
def parse_num : List Nat → List Nat × List Nat
  | [] => ([], [])
  | c :: rest =>
    if is_digit c then
      let pr := parse_num rest
      (c :: pr.1, pr.2)
    else ([], c :: rest)

theorem parse_space_eq (l : List Nat) :
    (parse_space l).1 ++ (parse_space l).2 = l := by
  induction l with
  | nil => rfl
  | cons c rest ih =>
    simp only [parse_space]
    split
    · simpa using ih
    · rfl

theorem parse_block_comment_eq (l : List Nat) :
    (parse_block_comment l).1 ++ (parse_block_comment l).2 = l := by
  induction l with
  | nil => rfl
  | cons c rest ih =>
    simp only [parse_block_comment]
    split
    · rfl
    · split
      · next h2 =>
        obtain ⟨hc, hh⟩ := h2
        subst hc
        cases rest with
        | nil => simp [headB] at hh
        | cons d rest2 =>
          simp [headB] at hh
          simp [hh]
      · simpa using ih

theorem parse_inline_comment_eq (l : List Nat) :
    (parse_inline_comment l).1 ++ (parse_inline_comment l).2 = l := by
  induction l with
  | nil => rfl
  | cons c rest ih =>
    simp only [parse_inline_comment]
    split
    · simpa using ih
    · rfl

theorem parse_string_literal_eq (prev : Nat) (l : List Nat) :
    (parse_string_literal prev l).1 ++ (parse_string_literal prev l).2 = l := by
  induction l generalizing prev with
  | nil => rfl
  | cons c rest ih =>
    simp only [parse_string_literal]
    split
    · rfl
    · split
      · rfl
      · simpa using ih c

theorem parse_identifier_eq (l : List Nat) :
    (parse_identifier l).1 ++ (parse_identifier l).2 = l := by
  induction l with
  | nil => rfl
  | cons c rest ih =>
    simp only [parse_identifier]
    split
    · simpa using ih
    · rfl

theorem parse_num_eq (l : List Nat) :
    (parse_num l).1 ++ (parse_num l).2 = l := by
  induction l with
  | nil => rfl
  | cons c rest ih =>
    simp only [parse_num]
    split
    · simpa using ih
    · rfl

/-! ## Tokenizer (the highlighting scan of tte.cpp main, lines 266-322;
load_file of part_000, lines 316-372, is the same loop body except on the
unrecognized-byte branch) -/

/-- Kind of a span produced by one classification step of the scan.  A `/`
that opens neither comment form is echoed exactly like a fixed punctuation
byte (`write (1, buffer_p++, 1)`), so it is recorded as `punct`. -/
inductive SpanKind where
  | whitespace
  | blockComment
  | lineComment
  | stringLit
  | punct
  | ident
  | num
  deriving DecidableEq, Repr

/-- One span of the scan: its kind and the bytes it covers (echoed, in
order, by the corresponding `write` calls of the source). -/
structure Span where
  kind : SpanKind
  text : List Nat
  deriving DecidableEq, Repr

/-- The bytes covered by a span sequence, in order. -/
def joinSpans : List Span → List Nat
  | [] => []
  | s :: rest => s.text ++ joinSpans rest

/-- Whitespace consumed by a `parse_space` call, as zero or one spans. -/
def wsSpans (l : List Nat) : List Span :=
  if l = [] then [] else [⟨SpanKind.whitespace, l⟩]

/-- The if-else chain of the scan loop body (tte.cpp:268-319) at a byte `c`
with remaining input `rest`: the span it produces together with the
remaining input, or — on the final `else` (tte.cpp:315-319, `return 1`) —
the unclassifiable byte as the error. -/
def classify (c : Nat) (rest : List Nat) : Except Nat (Span × List Nat) :=
  if c = 47 then
    if headB rest = 42 then
      let pr := parse_block_comment (c :: rest)
      Except.ok (⟨SpanKind.blockComment, pr.1⟩, pr.2)
    else if headB rest = 47 then
      let pr := parse_inline_comment (c :: rest)
      Except.ok (⟨SpanKind.lineComment, pr.1⟩, pr.2)
    else Except.ok (⟨SpanKind.punct, [c]⟩, rest)
  else if c = 34 then
    let pr := parse_string_literal 34 rest
    Except.ok (⟨SpanKind.stringLit, c :: pr.1⟩, pr.2)
  else if is_fixed_punct c then Except.ok (⟨SpanKind.punct, [c]⟩, rest)
  else if is_latin c then
    let pr := parse_identifier (c :: rest)
    Except.ok (⟨SpanKind.ident, pr.1⟩, pr.2)
  else if is_digit c then
    let pr := parse_num (c :: rest)
    Except.ok (⟨SpanKind.num, pr.1⟩, pr.2)
  else Except.error c

/-- The scan loop `for (...; *buffer_p; )` (tte.cpp:266-322) after the
initial `parse_space`, with explicit fuel; `tokenize` supplies enough fuel
for the loop to run to completion (every iteration consumes at least one
byte). -/
def tokenize_go : Nat → List Nat → Except Nat (List Span)
  | 0, _ => Except.error 0
  | fuel + 1, buf =>
    match buf with
    | [] => Except.ok []
    | c :: rest =>
      if c = 0 then Except.ok []
      else
        match classify c rest with
        | Except.error e => Except.error e
        | Except.ok (sp, rem) =>
          let ws := parse_space rem
          match tokenize_go fuel ws.2 with
          | Except.error e => Except.error e
          | Except.ok spans => Except.ok (sp :: (wsSpans ws.1 ++ spans))

/-- The whole highlighting scan (tte.cpp:266-322): leading whitespace, then
the classification loop.  `Except.error c` models the `return 1` of
tte.cpp:318 with the unclassifiable byte `c`. -/
def tokenize (buf : List Nat) : Except Nat (List Span) :=
  let ws := parse_space buf
  match tokenize_go (buf.length + 1) ws.2 with
  | Except.error e => Except.error e
  | Except.ok spans => Except.ok (wsSpans ws.1 ++ spans)

/-- Whether the scan ran to completion (no unclassifiable byte reached). -/
def tokOk (buf : List Nat) : Bool :=
  match tokenize buf with
  | Except.ok _ => true
  | Except.error _ => false

/-- One iteration of part_000's `load_file` scan loop (part_000:316-372):
same body as tte.cpp, except that the unrecognized-byte branch
(part_000:366-369) only prints a diagnostic and does not advance
`buffer_p`, so the returned remaining input is unchanged there.
`none` models loop exit. -/
def scan_step0 (buf : List Nat) : Option (List Nat) :=
  match buf with
  | [] => none
  | c :: rest =>
    if c = 0 then none
    else
      match classify c rest with
      | Except.ok (_, rem) => some (parse_space rem).2
      | Except.error _ => some (parse_space (c :: rest)).2

theorem suffix_len_le {a b l : List Nat} (h : a ++ b = l) :
    b.length ≤ l.length := by
  have h2 := congrArg List.length h
  simp only [List.length_append] at h2
  omega

theorem suffix_mem {a b l : List Nat} (h : a ++ b = l) {x : Nat}
    (hx : x ∈ b) : x ∈ l := by
  rw [← h]
  exact List.mem_append_right a hx

theorem joinSpans_append (a b : List Span) :
    joinSpans (a ++ b) = joinSpans a ++ joinSpans b := by
  induction a with
  | nil => rfl
  | cons s rest ih => simp [joinSpans, ih]

theorem joinSpans_wsSpans (l : List Nat) : joinSpans (wsSpans l) = l := by
  unfold wsSpans
  split
  · next h => subst h; rfl
  · simp [joinSpans]

/-- Each successful classification step covers exactly the input it
consumed: its span text followed by the remaining input is the input. -/
theorem classify_text {c : Nat} {rest : List Nat} {sp : Span}
    {rem : List Nat} (h : classify c rest = Except.ok (sp, rem)) :
    sp.text ++ rem = c :: rest := by
  unfold classify at h
  split at h
  · split at h
    · simp only [Except.ok.injEq, Prod.mk.injEq] at h
      obtain ⟨h1, h2⟩ := h
      subst h1; subst h2
      exact parse_block_comment_eq (c :: rest)
    · split at h
      · simp only [Except.ok.injEq, Prod.mk.injEq] at h
        obtain ⟨h1, h2⟩ := h
        subst h1; subst h2
        exact parse_inline_comment_eq (c :: rest)
      · simp only [Except.ok.injEq, Prod.mk.injEq] at h
        obtain ⟨h1, h2⟩ := h
        subst h1; subst h2
        rfl
  · split at h
    · simp only [Except.ok.injEq, Prod.mk.injEq] at h
      obtain ⟨h1, h2⟩ := h
      subst h1; subst h2
      have h3 := parse_string_literal_eq 34 rest
      simpa using h3
    · split at h
      · simp only [Except.ok.injEq, Prod.mk.injEq] at h
        obtain ⟨h1, h2⟩ := h
        subst h1; subst h2
        rfl
      · split at h
        · simp only [Except.ok.injEq, Prod.mk.injEq] at h
          obtain ⟨h1, h2⟩ := h
          subst h1; subst h2
          exact parse_identifier_eq (c :: rest)
        · split at h
          · simp only [Except.ok.injEq, Prod.mk.injEq] at h
            obtain ⟨h1, h2⟩ := h
            subst h1; subst h2
            exact parse_num_eq (c :: rest)
          · cases h

/-- Each successful classification step consumes at least the byte it was
called on: the remaining input is no longer than the tail of the input. -/
theorem classify_len {c : Nat} {rest : List Nat} {sp : Span}
    {rem : List Nat} (h : classify c rest = Except.ok (sp, rem))
    (hc : c ≠ 0) : rem.length ≤ rest.length := by
  unfold classify at h
  split at h
  · next hc47 =>
    subst hc47
    split at h
    · simp only [Except.ok.injEq, Prod.mk.injEq] at h
      obtain ⟨_, h2⟩ := h
      subst h2
      rw [show parse_block_comment (47 :: rest) =
          (47 :: (parse_block_comment rest).1, (parse_block_comment rest).2)
        by simp [parse_block_comment]]
      exact suffix_len_le (parse_block_comment_eq rest)
    · split at h
      · simp only [Except.ok.injEq, Prod.mk.injEq] at h
        obtain ⟨_, h2⟩ := h
        subst h2
        rw [show parse_inline_comment (47 :: rest) =
            (47 :: (parse_inline_comment rest).1, (parse_inline_comment rest).2)
          by simp [parse_inline_comment]]
        exact suffix_len_le (parse_inline_comment_eq rest)
      · simp only [Except.ok.injEq, Prod.mk.injEq] at h
        obtain ⟨_, h2⟩ := h
        subst h2
        exact Nat.le_refl _
  · split at h
    · simp only [Except.ok.injEq, Prod.mk.injEq] at h
      obtain ⟨_, h2⟩ := h
      subst h2
      exact suffix_len_le (parse_string_literal_eq 34 rest)
    · split at h
      · simp only [Except.ok.injEq, Prod.mk.injEq] at h
        obtain ⟨_, h2⟩ := h
        subst h2
        exact Nat.le_refl _
      · split at h
        · next hlat =>
          simp only [Except.ok.injEq, Prod.mk.injEq] at h
          obtain ⟨_, h2⟩ := h
          subst h2
          rw [show parse_identifier (c :: rest) =
              (c :: (parse_identifier rest).1, (parse_identifier rest).2)
            by simp [parse_identifier, hlat]]
          exact suffix_len_le (parse_identifier_eq rest)
        · split at h
          · next hdig =>
            simp only [Except.ok.injEq, Prod.mk.injEq] at h
            obtain ⟨_, h2⟩ := h
            subst h2
            rw [show parse_num (c :: rest) =
                (c :: (parse_num rest).1, (parse_num rest).2)
              by simp [parse_num, hdig]]
            exact suffix_len_le (parse_num_eq rest)
          · cases h

/-- When the scan loop runs to completion on a NUL-free input, its spans
cover the input exactly. -/
theorem tokenize_go_join :
    ∀ (fuel : Nat) (buf : List Nat) (spans : List Span),
      buf.length < fuel → 0 ∉ buf →
      tokenize_go fuel buf = Except.ok spans → joinSpans spans = buf := by
  intro fuel
  induction fuel with
  | zero =>
    intro buf spans hlen
    omega
  | succ fuel ih =>
    intro buf spans hlen hmem h
    cases buf with
    | nil =>
      simp only [tokenize_go, Except.ok.injEq] at h
      subst h
      rfl
    | cons c rest =>
      have hc : c ≠ 0 := fun hc0 => hmem (hc0 ▸ List.mem_cons_self c rest)
      simp only [tokenize_go] at h
      rw [if_neg hc] at h
      cases hcl : classify c rest with
      | error e => rw [hcl] at h; cases h
      | ok pr =>
        obtain ⟨sp, rem⟩ := pr
        rw [hcl] at h
        simp only at h
        cases hgo : tokenize_go fuel (parse_space rem).2 with
        | error e => rw [hgo] at h; cases h
        | ok spans2 =>
          rw [hgo] at h
          simp only [Except.ok.injEq] at h
          subst h
          have htext := classify_text hcl
          have hws := parse_space_eq rem
          have hlen2 : (parse_space rem).2.length < fuel := by
            have := suffix_len_le hws
            have := classify_len hcl hc
            simp only [List.length_cons] at hlen
            omega
          have hmem2 : 0 ∉ (parse_space rem).2 := by
            intro h0
            exact hmem (htext ▸ List.mem_append_right sp.text
              (hws ▸ List.mem_append_right (parse_space rem).1 h0))
          have hih := ih (parse_space rem).2 spans2 hlen2 hmem2 hgo
          simp only [joinSpans, joinSpans_append, joinSpans_wsSpans, hih]
          rw [← List.append_assoc, List.append_assoc sp.text]
          rw [hws, htext]

/-- C1 (amended): whenever the highlighting scan runs to completion — that
is, no unclassifiable byte is reached — the spans it produced, concatenated
in order, reproduce the NUL-terminated input buffer exactly, with no gaps
or overlaps.  (On a buffer containing an unclassifiable byte the scan of
tte.cpp aborts with no covering span sequence; see the counterexample.) -/
theorem tokenize_ok_covers (buf : List Nat) (spans : List Span)
    (hnul : 0 ∉ buf) (h : tokenize buf = Except.ok spans) :
    joinSpans spans = buf := by
  unfold tokenize at h
  simp only at h
  cases hgo : tokenize_go (buf.length + 1) (parse_space buf).2 with
  | error e => rw [hgo] at h; cases h
  | ok spans2 =>
    rw [hgo] at h
    simp only [Except.ok.injEq] at h
    subst h
    have hws := parse_space_eq buf
    have hlen : (parse_space buf).2.length < buf.length + 1 := by
      have := suffix_len_le hws
      omega
    have hmem : 0 ∉ (parse_space buf).2 := fun h0 => hnul (suffix_mem hws h0)
    have hih := tokenize_go_join (buf.length + 1) _ spans2 hlen hmem hgo
    rw [joinSpans_append, joinSpans_wsSpans, hih, hws]

/-- C1 witness: on the spec's own example `/* a */b` the scan succeeds and
its spans concatenate back to the buffer. -/
theorem tokenize_ok_covers_witness :
    (0 : Nat) ∉ [47, 42, 32, 97, 32, 42, 47, 98] ∧
    joinSpans [⟨SpanKind.blockComment, [47, 42, 32, 97, 32, 42, 47]⟩,
      ⟨SpanKind.ident, [98]⟩] = [47, 42, 32, 97, 32, 42, 47, 98] :=
  ⟨by decide, tokenize_ok_covers _ _ (by decide) (by rfl)⟩

/-- C1 counterexample: on the one-byte buffer `#` (byte 35) the scan does
not produce any span sequence at all — it stops in the unclassifiable-byte
branch — so it does not partition this buffer. -/
theorem tokenize_aborts_on_unclassifiable : tokOk [35] = false := by rfl

/-- C3: at an unclassifiable byte (here `#`, byte 35) the scan of tte.cpp
exits the process with status 1 (modelled as `Except.error 35`) instead of
emitting a one-byte span, and one iteration of part_000's `load_file` scan
loop leaves the scan position unchanged (`some [35]`), so that scan never
continues past the byte. -/
theorem scan_unclassifiable_byte_halts :
    tokenize [35] = Except.error 35 ∧ scan_step0 [35] = some [35] :=
  ⟨by rfl, by rfl⟩

/-! ## Cursor model (arrow-key handlers of tte.cpp main, lines 367-450;
part_000 main, lines 482-565, runs the same UP/DOWN code on its pair
`(y, x)` of buffer offset and column) -/

/-- The backward scan of the UP handler (tte.cpp:375-379):
`while (buffer_pos > 0 && buffer[buffer_pos - 1] != '\n')` decrementing the
position and counting the previous line's length.  Returns the final
position and the accumulated length. -/
def scan_back (buf : List Nat) : Nat → Nat → Nat × Nat
  | 0, len => (0, len)
  | p + 1, len =>
    if getB buf p ≠ 10 then scan_back buf p (len + 1) else (p + 1, len)

/-- Length of the run of bytes before the next `\n` or NUL. -/
def run_nonl : List Nat → Nat
  | [] => 0
  | c :: rest => if c = 0 ∨ c = 10 then 0 else run_nonl rest + 1

/-- The forward scan of the DOWN handler (tte.cpp:399-403):
`while (buffer[pos] && buffer[pos] != '\n') ++pos;` starting at `pos`. -/
def scan_eol (buf : List Nat) (pos : Nat) : Nat := pos + run_nonl (buf.drop pos)

/-- The clamping for-loop of the DOWN handler (tte.cpp:409-419): advance at
most `n` positions, stopping at a NUL or `\n`; returns the final position
and the number of steps actually taken (which the handler stores back into
`buffer_line_pos` whether or not the loop broke early). -/
def walk_right (buf : List Nat) (pos : Nat) : Nat → Nat × Nat
  | 0 => (pos, 0)
  | n + 1 =>
    if getB buf pos = 0 ∨ getB buf pos = 10 then (pos, 0)
    else
      let w := walk_right buf (pos + 1) n
      (w.1, w.2 + 1)

/-- UP handler (tte.cpp:367-396) on `(offset, column)`; the `size_t`
subtractions wrap modulo `2 ^ 64`, which `subW` makes explicit. -/
def move_up (buf : List Nat) (pos col : Nat) : Nat × Nat :=
  if subW pos col ≠ 0 then
    let sb := scan_back buf (subW pos (col + 1)) 0
    let col2 := if sb.2 > col then col else sb.2
    if col2 > 0 then (sb.1 + col2, col2) else (sb.1, col2)
  else (pos, col)

/-- DOWN handler (tte.cpp:397-432) on `(offset, column)`: scan to the end
of the current line; if a `\n` was found (not the end of the buffer), move
past it and re-walk at most `column` bytes of the next line. -/
def move_down (buf : List Nat) (pos col : Nat) : Nat × Nat :=
  if getB buf (scan_eol buf pos) ≠ 0 then
    walk_right buf (scan_eol buf pos + 1) col
  else (pos, col)

/-- RIGHT handler of tte.cpp (tte.cpp:433-441): advance only when the byte
under the cursor exists and is not a newline. -/
def move_right (buf : List Nat) (pos col : Nat) : Nat × Nat :=
  if getB buf pos ≠ 0 ∧ getB buf pos ≠ 10 then (pos + 1, col + 1)
  else (pos, col)

/-- LEFT handler (tte.cpp:442-450): guarded by `column > 0` only. -/
def move_left (pos col : Nat) : Nat × Nat :=
  if col > 0 then (subW pos 1, col - 1) else (pos, col)

/-- RIGHT handler of part_000 (part_000:548-556): the buffer guard is
commented out there, so the column advances unconditionally (the offset
`y` is not touched). -/
def move_right0 (x : Nat) : Nat := x + 1

/-- LEFT handler of part_000 (part_000:557-565): only the column moves. -/
def move_left0 (x : Nat) : Nat := if x > 0 then x - 1 else x

theorem subW_of_le {a b : Nat} (hb : b ≤ a) (ha : a < WSIZE) :
    subW a b = a - b := by
  unfold subW
  rw [show a + WSIZE - b = WSIZE + (a - b) by omega]
  rw [Nat.add_mod_left]
  exact Nat.mod_eq_of_lt (by omega)

theorem getB_eq_headB_drop (buf : List Nat) (p : Nat) :
    getB buf p = headB (buf.drop p) := by
  induction buf generalizing p with
  | nil => simp [getB, headB, List.getD]
  | cons c rest ih =>
    cases p with
    | zero => rfl
    | succ q =>
      show getB rest q = headB (rest.drop q)
      exact ih q

theorem drop_succ_of_ne {buf : List Nat} {p : Nat} (h : getB buf p ≠ 0) :
    buf.drop p = getB buf p :: buf.drop (p + 1) := by
  induction buf generalizing p with
  | nil => simp [getB, List.getD] at h
  | cons c rest ih =>
    cases p with
    | zero => rfl
    | succ q =>
      have h2 : getB rest q ≠ 0 := by
        simpa [getB, List.getD] using h
      simpa [getB, List.getD] using ih h2

/-- Characterization of the DOWN handler's clamping loop: it takes exactly
`min n L` steps, where `L` is the distance to the end of the line. -/
theorem walk_right_spec (buf : List Nat) :
    ∀ (n pos : Nat), walk_right buf pos n =
      (pos + min n (run_nonl (buf.drop pos)), min n (run_nonl (buf.drop pos))) := by
  intro n
  induction n with
  | zero => intro pos; simp [walk_right]
  | succ n ih =>
    intro pos
    simp only [walk_right]
    split
    · next h =>
      have hrun : run_nonl (buf.drop pos) = 0 := by
        rcases h with h0 | h10
        · cases hd : buf.drop pos with
          | nil => rfl
          | cons c tail =>
            have : c = 0 := by
              have := getB_eq_headB_drop buf pos
              rw [hd] at this
              simp [headB] at this
              omega
            simp [run_nonl, this]
        · rw [drop_succ_of_ne (by omega), h10]
          simp [run_nonl]
      rw [hrun]
      simp
    · next h =>
      push_neg at h
      obtain ⟨h0, h10⟩ := h
      have hd := drop_succ_of_ne h0
      have hrun : run_nonl (buf.drop pos) = run_nonl (buf.drop (pos + 1)) + 1 := by
        rw [hd]
        simp [run_nonl, h0, h10]
      rw [ih (pos + 1), hrun]
      have hmin : min (n + 1) (run_nonl (buf.drop (pos + 1)) + 1) =
          min n (run_nonl (buf.drop (pos + 1))) + 1 := by omega
      rw [hmin]
      simp only [Prod.mk.injEq]
      constructor
      · omega
      · trivial

/-- The backward scan stops at position 0 when no newline precedes `p`,
having counted exactly `p` bytes. -/
theorem scan_back_no_nl :
    ∀ (p : Nat) (buf : List Nat) (len : Nat),
      (∀ i, i < p → getB buf i ≠ 10) → scan_back buf p len = (0, len + p) := by
  intro p
  induction p with
  | zero => intro buf len h; rfl
  | succ p ih =>
    intro buf len h
    simp only [scan_back]
    rw [if_pos (h p (by omega))]
    rw [ih buf (len + 1) (fun i hi => h i (by omega))]
    simp only [Prod.mk.injEq, true_and]
    omega

theorem run_nonl_of_head {l : List Nat} (h : headB l = 0 ∨ headB l = 10) :
    run_nonl l = 0 := by
  cases l with
  | nil => rfl
  | cons c rest =>
    simp only [headB, List.headD] at h
    simp [run_nonl, h]

/-- C2: vertical motion onto a shorter line clamps the column to that
line's length, and the clamped column persists.  First conjunct: whenever
the line below the cursor is shorter than the current column, `move_down`
sets the column to that line's length.  Second conjunct: in a buffer whose
first line has the five bytes `a..e` and whose second line has the two
bytes `f g`, starting at column 5 on line 0, `move_down` yields offset 8
and column 2, and a subsequent `move_up` yields offset 2 and column 2 on
line 0 — the clamped column 2, not the original 5. -/
theorem move_down_clamps_and_sticky :
    (∀ (buf : List Nat) (pos col : Nat),
      getB buf (scan_eol buf pos) = 10 →
      run_nonl (buf.drop (scan_eol buf pos + 1)) < col →
      (move_down buf pos col).2 = run_nonl (buf.drop (scan_eol buf pos + 1))) ∧
    (∀ (a b c d e f g : Nat) (rest : List Nat),
      a ≠ 0 → a ≠ 10 → b ≠ 0 → b ≠ 10 → c ≠ 0 → c ≠ 10 → d ≠ 0 → d ≠ 10 →
      e ≠ 0 → e ≠ 10 → f ≠ 0 → f ≠ 10 → g ≠ 0 → g ≠ 10 →
      (headB rest = 0 ∨ headB rest = 10) →
      move_down ([a, b, c, d, e, 10, f, g] ++ rest) 5 5 = (8, 2) ∧
      move_up ([a, b, c, d, e, 10, f, g] ++ rest) 8 2 = (2, 2)) := by
  constructor
  · intro buf pos col hnl hshort
    unfold move_down
    rw [if_pos (by rw [hnl]; omega)]
    rw [walk_right_spec]
    omega
  · intro a b c d e f g rest ha0 ha10 hb0 hb10 hc0 hc10 hd0 hd10 he0 he10
      hf0 hf10 hg0 hg10 hrest
    have hdrop5 : ([a, b, c, d, e, 10, f, g] ++ rest).drop 5 =
        10 :: f :: g :: rest := rfl
    have hdrop6 : ([a, b, c, d, e, 10, f, g] ++ rest).drop 6 =
        f :: g :: rest := rfl
    have hse : scan_eol ([a, b, c, d, e, 10, f, g] ++ rest) 5 = 5 := by
      simp [scan_eol, hdrop5, run_nonl]
    have h5 : getB ([a, b, c, d, e, 10, f, g] ++ rest) 5 = 10 := rfl
    have hrun6 : run_nonl (([a, b, c, d, e, 10, f, g] ++ rest).drop 6) = 2 := by
      rw [hdrop6]
      simp [run_nonl, hf0, hf10, hg0, hg10, run_nonl_of_head hrest]
    constructor
    · unfold move_down
      rw [hse, h5]
      simp only [ne_eq, reduceCtorEq, not_false_eq_true, if_pos]
      rw [walk_right_spec, hrun6]
      rfl
    · unfold move_up
      have hw : (8 : Nat) < WSIZE := by unfold WSIZE; norm_num
      have h82 : subW 8 2 = 6 := by rw [subW_of_le (by omega) hw]
      have h83 : subW 8 3 = 5 := by rw [subW_of_le (by omega) hw]
      rw [h82, h83]
      have hsb : scan_back ([a, b, c, d, e, 10, f, g] ++ rest) 5 0 = (0, 5) := by
        rw [scan_back_no_nl 5 _ 0]
        intro i hi
        have hi5 : i = 0 ∨ i = 1 ∨ i = 2 ∨ i = 3 ∨ i = 4 := by omega
        rcases hi5 with h | h | h | h | h <;> subst h
        · exact ha10
        · exact hb10
        · exact hc10
        · exact hd10
        · exact he10
      rw [hsb]
      norm_num

/-- C2 witness: the concrete buffer `abcde\nfg`. -/
theorem move_down_clamps_and_sticky_witness :
    move_down [97, 98, 99, 100, 101, 10, 102, 103] 5 5 = (8, 2) ∧
    move_up [97, 98, 99, 100, 101, 10, 102, 103] 8 2 = (2, 2) := by
  have h := move_down_clamps_and_sticky.2 97 98 99 100 101 102 103 []
    (by decide) (by decide) (by decide) (by decide) (by decide) (by decide)
    (by decide) (by decide) (by decide) (by decide) (by decide) (by decide)
    (by decide) (by decide) (Or.inl rfl)
  simpa using h

/-- C7 (amended): `move_left` at buffer start (offset 0, hence column 0 by
the cursor invariant `column ≤ offset`) leaves offset and column unchanged
in both prototypes, and tte.cpp's `move_right` at end of buffer or at a
line-ending newline leaves them unchanged; part_000's RIGHT handler
(its buffer guard commented out) instead increments the column
unconditionally, its offset untouched. -/
theorem edge_motion_amended (buf : List Nat) (pos col x : Nat) :
    (pos = 0 → col ≤ pos → move_left pos col = (pos, col)) ∧
    ((getB buf pos = 0 ∨ getB buf pos = 10) →
      move_right buf pos col = (pos, col)) ∧
    move_left0 0 = 0 ∧ move_right0 x = x + 1 := by
  refine ⟨?_, ?_, rfl, rfl⟩
  · intro hp hc
    have h0 : col = 0 := by omega
    subst hp; subst h0
    rfl
  · intro h
    unfold move_right
    rw [if_neg (by rcases h with h | h <;> simp [h])]

/-- C7 witness: empty buffer, cursor at offset 0. -/
theorem edge_motion_amended_witness :
    move_left 0 0 = (0, 0) ∧ move_right [] 0 0 = (0, 0) ∧
    move_left0 0 = 0 ∧ move_right0 5 = 6 :=
  ⟨(edge_motion_amended [] 0 0 5).1 rfl (by decide),
   (edge_motion_amended [] 0 0 5).2.1 (Or.inl rfl),
   (edge_motion_amended [] 0 0 5).2.2.1,
   (edge_motion_amended [] 0 0 5).2.2.2⟩

/-! ## Input loop (tte.cpp main, lines 340-458; part_000 main, lines
397-569).  A read chunk is the list of bytes `read` returned; processing a
chunk either yields the next state or hits an `assert(!"...")`, modelled as
`Except.error ()` (the process aborts). -/

/-- Editor state of tte.cpp's loop: the NUL-terminated text `buffer`, the
cursor pair `buffer_pos`/`buffer_line_pos`, and the `keep_running` flag. -/
structure St where
  buf : List Nat
  pos : Nat
  col : Nat
  keep : Bool
  deriving DecidableEq, Repr

/-- The `switch (input[2])` of tte.cpp's 3-byte handler (tte.cpp:365-452):
arrow keys move the cursor; any other final byte hits
`assert (!"Unhandled escape key input")`. -/
def arrow_tte (st : St) (k : Nat) : Except Unit St :=
  if k = 65 then
    let m := move_up st.buf st.pos st.col
    Except.ok ⟨st.buf, m.1, m.2, st.keep⟩
  else if k = 66 then
    let m := move_down st.buf st.pos st.col
    Except.ok ⟨st.buf, m.1, m.2, st.keep⟩
  else if k = 67 then
    let m := move_right st.buf st.pos st.col
    Except.ok ⟨st.buf, m.1, m.2, st.keep⟩
  else if k = 68 then
    let m := move_left st.pos st.col
    Except.ok ⟨st.buf, m.1, m.2, st.keep⟩
  else Except.error ()

/-- One iteration body of tte.cpp's input loop (tte.cpp:351-457).  One-byte
chunks: byte 1 is ignored, ESC clears `keep_running`, DEL echoes
`"\b \b"`, anything else is echoed — none of these touch the buffer or the
cursor.  Three-byte `ESC [` chunks dispatch on the final byte.  Any other
chunk hits `assert (!"Unhandled key input")`. -/
def process_chunk (st : St) (chunk : List Nat) : Except Unit St :=
  if chunk.length = 1 then
    if headB chunk = 1 then Except.ok st
    else if headB chunk = 27 then Except.ok ⟨st.buf, st.pos, st.col, false⟩
    else if headB chunk = 127 then Except.ok st
    else Except.ok st
  else if chunk.length = 3 ∧ getB chunk 0 = 27 ∧ getB chunk 1 = 91 then
    arrow_tte st (getB chunk 2)
  else Except.error ()

/-- part_000's `Buffer` record (part_000:51-55). -/
structure Buf0 where
  data : List Nat
  used : Nat
  size : Nat
  deriving DecidableEq, Repr

/-- Editor state of part_000's loop: the `Buffer` and the pair `x`/`y`
(`x` is the column; `y` is used as the buffer offset by the arrow handlers
and as the row by the character handlers), plus `keep_running`. -/
structure St0 where
  buffer : Buf0
  x : Nat
  y : Nat
  keep : Bool
  deriving DecidableEq, Repr

/-- The `switch (input[2])` of part_000's 3-byte handler
(part_000:480-567): UP/DOWN run the same scans as tte.cpp on `(y, x)`;
RIGHT has its buffer guard commented out and moves the column
unconditionally; LEFT moves the column only; anything else hits
`assert (!"Unhandled escape key input")`. -/
def arrow0 (st : St0) (k : Nat) : Except Unit St0 :=
  if k = 65 then
    let m := move_up st.buffer.data st.y st.x
    Except.ok ⟨st.buffer, m.2, m.1, st.keep⟩
  else if k = 66 then
    let m := move_down st.buffer.data st.y st.x
    Except.ok ⟨st.buffer, m.2, m.1, st.keep⟩
  else if k = 67 then Except.ok ⟨st.buffer, move_right0 st.x, st.y, st.keep⟩
  else if k = 68 then Except.ok ⟨st.buffer, move_left0 st.x, st.y, st.keep⟩
  else Except.error ()

/-- One iteration body of part_000's input loop (part_000:435-568).
One-byte chunks: a printable byte echoes and advances the column, `\n`
starts a new row, DEL moves the cursor back (screen only), Ctrl-Q
(`'Q' - '@'` = 17) and ESC clear `keep_running`, other control bytes are
ignored.  Three-byte `ESC [` chunks dispatch on the final byte.  part_000
has no final `else`, so any other chunk is simply ignored. -/
def process_chunk0 (st : St0) (chunk : List Nat) : Except Unit St0 :=
  if chunk.length = 1 then
    if 32 ≤ headB chunk ∧ headB chunk ≤ 126 then
      Except.ok ⟨st.buffer, st.x + 1, st.y, st.keep⟩
    else if headB chunk = 10 then Except.ok ⟨st.buffer, 0, st.y + 1, st.keep⟩
    else if headB chunk = 127 then
      if st.x > 0 then Except.ok ⟨st.buffer, st.x - 1, st.y, st.keep⟩
      else if st.y > 0 then Except.ok ⟨st.buffer, st.x, st.y - 1, st.keep⟩
      else Except.ok st
    else if headB chunk = 17 ∨ headB chunk = 27 then
      Except.ok ⟨st.buffer, st.x, st.y, false⟩
    else Except.ok st
  else if chunk.length = 3 ∧ getB chunk 0 = 27 ∧ getB chunk 1 = 91 then
    arrow0 st (getB chunk 2)
  else Except.ok st

/-- tte.cpp's input loop over a list of read chunks, stopping when
`keep_running` is cleared; an assert abort freezes the state (the process
dies there). -/
def run (st : St) : List (List Nat) → St
  | [] => st
  | chunk :: rest =>
    if st.keep then
      match process_chunk st chunk with
      | Except.ok st2 => run st2 rest
      | Except.error _ => st
    else st

/-- part_000's input loop over a list of read chunks. -/
def run0 (st : St0) : List (List Nat) → St0
  | [] => st
  | chunk :: rest =>
    if st.keep then
      match process_chunk0 st chunk with
      | Except.ok st2 => run0 st2 rest
      | Except.error _ => st
    else st

/-- part_000's input loop with the abort made explicit: `Except.error ()`
when an `assert` kills the process mid-loop. -/
def run0E (st : St0) : List (List Nat) → Except Unit St0
  | [] => Except.ok st
  | chunk :: rest =>
    if st.keep then
      match process_chunk0 st chunk with
      | Except.ok st2 => run0E st2 rest
      | Except.error e => Except.error e
    else Except.ok st

/-- tte.cpp's input loop with the abort made explicit. -/
def runE (st : St) : List (List Nat) → Except Unit St
  | [] => Except.ok st
  | chunk :: rest =>
    if st.keep then
      match process_chunk st chunk with
      | Except.ok st2 => runE st2 rest
      | Except.error e => Except.error e
    else Except.ok st

/-- How many times part_000 executes `destroy_screen` (part_000:284-296)
for a given input script: once when the loop exits over a cleared
`keep_running` flag and `main` falls through to part_000:571, zero times
when an `assert` aborts the process mid-loop and zero times while the loop
is still blocked reading input. -/
def destroy_calls0 (st : St0) (chunks : List (List Nat)) : Nat :=
  match run0E st chunks with
  | Except.error _ => 0
  | Except.ok stf => if stf.keep then 0 else 1

/-- How many times tte.cpp restores the terminal for a given input script:
zero on every path — the `tcsetattr`/restore-screen block at
tte.cpp:461-466 is commented out in the source, so neither the normal-quit
path nor an assert abort restores anything. -/
def destroy_calls_tte (st : St) (chunks : List (List Nat)) : Nat :=
  match runE st chunks with
  | Except.error _ => 0
  | Except.ok _ => 0

theorem process_chunk_buf {st : St} {chunk : List Nat} {st2 : St}
    (h : process_chunk st chunk = Except.ok st2) : st2.buf = st.buf := by
  unfold process_chunk arrow_tte at h
  repeat' split at h
  all_goals simp only [Except.ok.injEq, reduceCtorEq] at h
  all_goals subst h
  all_goals rfl

theorem process_chunk0_buf {st : St0} {chunk : List Nat} {st2 : St0}
    (h : process_chunk0 st chunk = Except.ok st2) : st2.buffer = st.buffer := by
  unfold process_chunk0 arrow0 at h
  repeat' split at h
  all_goals simp only [Except.ok.injEq, reduceCtorEq] at h
  all_goals subst h
  all_goals rfl

/-- C10: the input loop never edits the buffer.  Every chunk the loop
processes — printable characters, Enter and Backspace included — leaves
the buffer contents (and, in part_000, the `used` and `size` fields of the
`Buffer` record) unchanged, in both prototypes; over any sequence of input
chunks the buffer at loop exit equals the buffer at loop entry. -/
theorem input_loop_preserves_buffer :
    (∀ (st : St) (chunk : List Nat) (st2 : St),
      process_chunk st chunk = Except.ok st2 → st2.buf = st.buf) ∧
    (∀ (st : St0) (chunk : List Nat) (st2 : St0),
      process_chunk0 st chunk = Except.ok st2 → st2.buffer = st.buffer) ∧
    (∀ (st : St) (chunks : List (List Nat)), (run st chunks).buf = st.buf) ∧
    (∀ (st : St0) (chunks : List (List Nat)),
      (run0 st chunks).buffer = st.buffer) := by
  refine ⟨fun st chunk st2 h => process_chunk_buf h,
    fun st chunk st2 h => process_chunk0_buf h, ?_, ?_⟩
  · intro st chunks
    induction chunks generalizing st with
    | nil => rfl
    | cons chunk rest ih =>
      simp only [run]
      split
      · cases hp : process_chunk st chunk with
        | ok st2 =>
          show (run st2 rest).buf = st.buf
          rw [ih st2, process_chunk_buf hp]
        | error e => rfl
      · rfl
  · intro st chunks
    induction chunks generalizing st with
    | nil => rfl
    | cons chunk rest ih =>
      simp only [run0]
      split
      · cases hp : process_chunk0 st chunk with
        | ok st2 =>
          show (run0 st2 rest).buffer = st.buffer
          rw [ih st2, process_chunk0_buf hp]
        | error e => rfl
      · rfl

/-- C10 witness: a RIGHT-arrow chunk on the one-byte buffer `a` moves the
cursor but leaves the buffer equal. -/
theorem input_loop_preserves_buffer_witness :
    (⟨[97], 1, 1, true⟩ : St).buf = (⟨[97], 0, 0, true⟩ : St).buf :=
  input_loop_preserves_buffer.1 ⟨[97], 0, 0, true⟩ [27, 91, 67]
    ⟨[97], 1, 1, true⟩ (by rfl)

/-- C4: a 3-byte `ESC [` chunk whose final byte is not A, B, C or D (here
`E`, byte 69) drives both prototypes into `assert (!"Unhandled escape key
input")` — the process aborts instead of continuing the input loop. -/
theorem unrecognized_escape_chunk_aborts :
    process_chunk ⟨[], 0, 0, true⟩ [27, 91, 69] = Except.error () ∧
    process_chunk0 ⟨⟨[], 0, 4096⟩, 0, 0, true⟩ [27, 91, 69] =
      Except.error () :=
  ⟨rfl, rfl⟩

/-- C5: the saved terminal state is not restored on every exit path.  On
part_000's assert-abort path (an `ESC [ E` chunk after raw mode was
entered) `destroy_screen` runs zero times, while the normal ESC-quit path
does run it once; tte.cpp runs its (commented-out) restore zero times even
on the normal quit path. -/
theorem terminal_restore_missing_on_paths :
    destroy_calls0 ⟨⟨[], 0, 4096⟩, 0, 0, true⟩ [[27, 91, 69]] = 0 ∧
    destroy_calls0 ⟨⟨[], 0, 4096⟩, 0, 0, true⟩ [[27]] = 1 ∧
    destroy_calls_tte ⟨[], 0, 0, true⟩ [[27]] = 0 :=
  ⟨rfl, rfl, rfl⟩

/-- C6: Backspace does not delete.  On the non-empty buffer `a`
(`used = 1`) with the cursor at its end, applying the Backspace handler
`used` = 1 times leaves the buffer contents, `used` and `size` unchanged
in part_000 (only the screen coordinates move), and leaves the whole state
unchanged in tte.cpp (which merely echoes `"\b \b"`), so the buffer never
becomes empty. -/
theorem backspace_does_not_delete :
    process_chunk0 ⟨⟨[97], 1, 4096⟩, 1, 0, true⟩ [127] =
      Except.ok ⟨⟨[97], 1, 4096⟩, 0, 0, true⟩ ∧
    process_chunk ⟨[97], 1, 1, true⟩ [127] =
      Except.ok ⟨[97], 1, 1, true⟩ :=
  ⟨rfl, rfl⟩

/-- C8 (amended): a 1-byte ESC chunk clears `keep_running` in both
prototypes; a 1-byte Ctrl-Q (0x11) chunk clears it only in part_000 —
tte.cpp's switch has no case 0x11, so Ctrl-Q falls to the default case,
is echoed like an ordinary byte, and the loop keeps running. -/
theorem quit_keys_amended (st : St) (st0 : St0) :
    process_chunk st [27] = Except.ok ⟨st.buf, st.pos, st.col, false⟩ ∧
    process_chunk0 st0 [27] = Except.ok ⟨st0.buffer, st0.x, st0.y, false⟩ ∧
    process_chunk0 st0 [17] = Except.ok ⟨st0.buffer, st0.x, st0.y, false⟩ ∧
    process_chunk st [17] = Except.ok st :=
  ⟨rfl, rfl, rfl, rfl⟩

/-- C8 counterexample: in tte.cpp a Ctrl-Q chunk does not set the
loop-termination flag — the state (including `keep_running = true`) is
returned unchanged, so the loop does not exit. -/
theorem tte_ctrl_q_not_quit :
    process_chunk ⟨[], 0, 0, true⟩ [17] = Except.ok ⟨[], 0, 0, true⟩ :=
  rfl

/-- C7 counterexample: in part_000, a RIGHT-arrow chunk at the end of the
(empty) buffer moves the column from 0 to 1 — `move_right` there is not a
no-op at end of buffer. -/
theorem part0_right_at_end_moves :
    process_chunk0 ⟨⟨[], 0, 4096⟩, 0, 0, true⟩ [27, 91, 67] =
      Except.ok ⟨⟨[], 0, 4096⟩, 1, 0, true⟩ :=
  rfl

/-! ## Startup TERM precondition (init, tte.cpp:216-239 / part_000:235-258,
called first thing in main before any terminal attribute is touched) -/

/-- Source `init`: checks `getenv ("TERM")`.  Returns (check passed,
diagnostic written to the error stream): both failure branches write a
diagnostic to fd 2 and return 0. -/
def init (term : Option String) : Bool × Bool :=
  match term with
  | none => (false, true)
  | some t =>
    if t ≠ "xterm" ∧ t ≠ "xterm-256color" then (false, true)
    else (true, false)

/-- What the start of `main` does: exit with a status before raw mode, or
reach `init_screen`/`tcsetattr` (raw mode entered). -/
inductive StartResult where
  | exitEarly (status : Nat) (diag : Bool) (rawEntered : Bool)
  | rawMode
  deriving DecidableEq, Repr

/-- `if (!init (argv[0])) return 1;` (tte.cpp:245, part_000:381): on a
failed check main returns 1 immediately, before `init_screen`/`tcgetattr`,
so no terminal attribute has been changed. -/
def program_start (term : Option String) : StartResult :=
  if (init term).1 = false then StartResult.exitEarly 1 (init term).2 false
  else StartResult.rawMode

/-- C9: for every value of `TERM` other than exactly `xterm` or
`xterm-256color`, including unset, the program writes a diagnostic to the
error stream and exits with status 1 without entering raw mode. -/
theorem bad_term_exits_early (term : Option String)
    (h : ∀ t, term = some t → t ≠ "xterm" ∧ t ≠ "xterm-256color") :
    program_start term = StartResult.exitEarly 1 true false := by
  cases term with
  | none => rfl
  | some t =>
    obtain ⟨h1, h2⟩ := h t rfl
    have hi : init (some t) = (false, true) := by
      show (if t ≠ "xterm" ∧ t ≠ "xterm-256color" then ((false : Bool), true)
        else (true, false)) = (false, true)
      rw [if_pos (⟨h1, h2⟩ : t ≠ "xterm" ∧ t ≠ "xterm-256color")]
    unfold program_start
    rw [hi]
    rfl

/-- C9 witness: `TERM=dumb` and unset `TERM` both exit early. -/
theorem bad_term_exits_early_witness :
    program_start (some "dumb") = StartResult.exitEarly 1 true false ∧
    program_start none = StartResult.exitEarly 1 true false :=
  ⟨bad_term_exits_early (some "dumb")
      (fun t ht => by injection ht with h; subst h; exact ⟨by decide, by decide⟩),
   bad_term_exits_early none (fun t ht => by cases ht)⟩

end TextEditor
